import Mathlib

/-!
Verification of the WASM boundary of AkaraChen/clang-format.

The repository exposes a C-style binding (two variants: `src/wasi_binding.cc`,
which returns an integer status, and the export-name variant `src/unnamed/part_000`,
which returns a pointer to the result record) around an opaque `ClangFormat`
engine.  We embed the binding's global state and its exported operations as
pure Lean functions with explicit state passing.  The engine itself
(`ClangFormat::format`, `ClangFormat::version`, declared in `lib.h`, outside
the binding) is an external collaborator: `format` receives it as an oracle
function argument, and `version` receives the engine's version string as an
argument.

Heap modelling: pointers are abstract identifiers (`Nat`); `nullptr` is
`Option.none`.  The binding's own `malloc`/`free` calls for the result buffer
are tracked in a list of live blocks (`live : List (Nat × List Nat)`, id with
byte contents), together with a fresh-id counter `nextPtr`.  Each call also
reports its allocator interactions as a list of `MemEvent`s, which lets us
state the no-leak / no-double-free properties as properties of the emitted
event trace.
-/

namespace ClangFormatWasm

/-- Engine outcome statuses (`ResultStatus` in `lib.h`): Success, Error, Unchanged. -/
inductive ResultStatus : Type
  | success
  | error
  | unchanged
deriving DecidableEq, Repr

/-- Engine outcome (`Result` in `lib.h`): a status together with the output bytes
(`std::string content`, modelled as a byte list). -/
structure EngineResult : Type where
  status : ResultStatus
  content : List Nat
deriving DecidableEq, Repr

/-- Modelled from the spec: the `ClangFormat` class of `lib.h` is not under
`src/`; per the spec it wraps the engine's mutable configuration, a primary
style name and a fallback style name, each an optional string. -/
structure ClangFormat : Type where
  primaryStyle : Option (List Nat)
  fallbackStyle : Option (List Nat)
deriving DecidableEq, Repr

/-- Modelled from the spec: `new ClangFormat()` constructs the handle with no
style configured yet (the style fields are optional strings). -/
def ClangFormat.new : ClangFormat := ⟨none, none⟩

/-- Modelled from the spec: `ClangFormat::with_style` copies the given byte
string into the handle's primary-style field. -/
def ClangFormat.with_style (f : ClangFormat) (s : List Nat) : ClangFormat :=
  { f with primaryStyle := some s }

/-- Modelled from the spec: `ClangFormat::with_fallback_style` copies the given
byte string into the handle's fallback-style field. -/
def ClangFormat.with_fallback_style (f : ClangFormat) (s : List Nat) : ClangFormat :=
  { f with fallbackStyle := some s }

/-- The engine's `format` member, opaque to this module: given the handle's
configuration and the (copied) code and filename byte strings, it produces an
`EngineResult`. -/
abbrev Engine : Type := ClangFormat → List Nat → List Nat → EngineResult

/-- `struct WasmResult`: `{int32_t status; char* content_ptr; int32_t content_len;}`.
`content_ptr` is `none` for `nullptr`, `some p` for a pointer id. -/
structure WasmResult : Type where
  status : Nat
  content_ptr : Option Nat
  content_len : Nat
deriving DecidableEq, Repr

/-- Allocator interactions (`malloc` / `free` on the binding's own result
buffers), reported as an event trace by each operation. -/
inductive MemEvent : Type
  | alloc (p : Nat)
  | free (p : Nat)
deriving DecidableEq, Repr

/-- The binding's global mutable state: `static ClangFormat* g_formatter`
(`none` = `nullptr`, i.e. never initialized), `static WasmResult g_last_result`,
the set of live module-owned heap blocks with their contents, a fresh pointer
counter, and the two `static std::string ver` local caches of `wasm_version`
and `wasm_version_len` (each function has its own static local). -/
structure WasmState : Type where
  g_formatter : Option ClangFormat
  g_last_result : WasmResult
  live : List (Nat × List Nat)
  nextPtr : Nat
  versionSlot : Option (Nat × List Nat)
  versionLenSlot : Option Nat
deriving DecidableEq, Repr

/-- Process start: `g_formatter = nullptr`, `g_last_result = {0, nullptr, 0}`,
no module-owned blocks, statics uninitialized. -/
def initState : WasmState :=
  { g_formatter := none
    g_last_result := { status := 0, content_ptr := none, content_len := 0 }
    live := []
    nextPtr := 0
    versionSlot := none
    versionLenSlot := none }

/-- `wasm_init`: if `g_formatter == nullptr`, `g_formatter = new ClangFormat()`. -/
def wasm_init (s : WasmState) : WasmState :=
  match s.g_formatter with
  | none => { s with g_formatter := some ClangFormat.new }
  | some _ => s

/-- `wasm_set_style`: returns `-1` if `g_formatter == nullptr`; otherwise
builds `std::string s(style, style_len)` (the caller's byte range, modelled as
the byte list `style`) and calls `with_style`, returning `0`. -/
def wasm_set_style (style : List Nat) (s : WasmState) : Int × WasmState :=
  match s.g_formatter with
  | none => (-1, s)
  | some f => (0, { s with g_formatter := some (f.with_style style) })

/-- `wasm_set_fallback_style`: same shape as `wasm_set_style`, targeting the
fallback-style field. -/
def wasm_set_fallback_style (style : List Nat) (s : WasmState) : Int × WasmState :=
  match s.g_formatter with
  | none => (-1, s)
  | some f => (0, { s with g_formatter := some (f.with_fallback_style style) })

/-- `ResultStatus` to the `int32_t` codes of the `switch` in `wasm_format`:
Success ↦ 0, Error ↦ 1, Unchanged ↦ 2. -/
def statusCode : ResultStatus → Nat
  | ResultStatus.success => 0
  | ResultStatus.error => 1
  | ResultStatus.unchanged => 2

/-- `wasm_format` of `src/wasi_binding.cc` (returns the integer status).
Output: (returned status, post state, allocator event trace).

Source, step by step: if `g_formatter == nullptr`, set
`g_last_result = {1, nullptr, 0}` and return `1` (no allocator interaction).
Otherwise free the previous `content_ptr` if non-null; copy the code and
filename byte ranges; call `g_formatter->format`; map the status via the
`switch`; if the output is non-empty, store its length and a freshly
`malloc`ed copy of exactly `content.size()` bytes, else store `{nullptr, 0}`;
return `g_last_result.status`. -/
def wasm_format_cc (engine : Engine) (code filename : List Nat) (s : WasmState) :
    Nat × WasmState × List MemEvent :=
  match s.g_formatter with
  | none =>
      (1, { s with g_last_result := { status := 1, content_ptr := none, content_len := 0 } }, [])
  | some f =>
      let live1 : List (Nat × List Nat) :=
        match s.g_last_result.content_ptr with
        | some p => s.live.eraseP (fun q => q.1 == p)
        | none => s.live
      let evs1 : List MemEvent :=
        match s.g_last_result.content_ptr with
        | some p => [MemEvent.free p]
        | none => []
      let result := engine f code filename
      let st := statusCode result.status
      if result.content = [] then
        (st,
         { s with
             g_last_result := { status := st, content_ptr := none, content_len := 0 }
             live := live1 },
         evs1)
      else
        (st,
         { s with
             g_last_result :=
               { status := st, content_ptr := some s.nextPtr,
                 content_len := result.content.length }
             live := (s.nextPtr, result.content) :: live1
             nextPtr := s.nextPtr + 1 },
         evs1 ++ [MemEvent.alloc s.nextPtr])

/-- `wasm_format` of `src/unnamed/part_000` (returns `WasmResult*`, a pointer
to `g_last_result`; the caller observes the record's three fields, so the first
component is the final value of `g_last_result`).  The body is otherwise
identical to the `src/wasi_binding.cc` variant. -/
def wasm_format_part000 (engine : Engine) (code filename : List Nat) (s : WasmState) :
    WasmResult × WasmState × List MemEvent :=
  match s.g_formatter with
  | none =>
      ({ status := 1, content_ptr := none, content_len := 0 },
       { s with g_last_result := { status := 1, content_ptr := none, content_len := 0 } }, [])
  | some f =>
      let live1 : List (Nat × List Nat) :=
        match s.g_last_result.content_ptr with
        | some p => s.live.eraseP (fun q => q.1 == p)
        | none => s.live
      let evs1 : List MemEvent :=
        match s.g_last_result.content_ptr with
        | some p => [MemEvent.free p]
        | none => []
      let result := engine f code filename
      let st := statusCode result.status
      if result.content = [] then
        ({ status := st, content_ptr := none, content_len := 0 },
         { s with
             g_last_result := { status := st, content_ptr := none, content_len := 0 }
             live := live1 },
         evs1)
      else
        ({ status := st, content_ptr := some s.nextPtr, content_len := result.content.length },
         { s with
             g_last_result :=
               { status := st, content_ptr := some s.nextPtr,
                 content_len := result.content.length }
             live := (s.nextPtr, result.content) :: live1
             nextPtr := s.nextPtr + 1 },
         evs1 ++ [MemEvent.alloc s.nextPtr])

/-- `wasm_get_result_status`: reads `g_last_result.status`. -/
def wasm_get_result_status (s : WasmState) : Nat :=
  s.g_last_result.status

/-- `wasm_get_result_ptr`: reads `g_last_result.content_ptr`. -/
def wasm_get_result_ptr (s : WasmState) : Option Nat :=
  s.g_last_result.content_ptr

/-- `wasm_get_result_len`: reads `g_last_result.content_len`. -/
def wasm_get_result_len (s : WasmState) : Nat :=
  s.g_last_result.content_len

/-- `wasm_free_result`: if `content_ptr != nullptr`, free it and zero the
pointer and length fields; otherwise do nothing. -/
def wasm_free_result (s : WasmState) : WasmState × List MemEvent :=
  match s.g_last_result.content_ptr with
  | some p =>
      ({ s with
           g_last_result :=
             { status := s.g_last_result.status, content_ptr := none, content_len := 0 }
           live := s.live.eraseP (fun q => q.1 == p) },
       [MemEvent.free p])
  | none => (s, [])

/-- `wasm_version`: `static std::string ver = ClangFormat::version(); return ver.c_str();`.
The static local is initialized on first call only; its `c_str` pointer is
stable thereafter.  `v` is the engine's version string (the value
`ClangFormat::version()` would produce on this call); it is consulted only
when the static is still uninitialized. -/
def wasm_version (v : List Nat) (s : WasmState) : Nat × WasmState :=
  match s.versionSlot with
  | some pv => (pv.1, s)
  | none => (s.nextPtr, { s with versionSlot := some (s.nextPtr, v), nextPtr := s.nextPtr + 1 })

/-- `wasm_version_len`: `static std::string ver = ClangFormat::version(); return ver.size();`
(its own static local, initialized on this function's first call). -/
def wasm_version_len (v : List Nat) (s : WasmState) : Nat × WasmState :=
  match s.versionLenSlot with
  | some n => (n, s)
  | none => (v.length, { s with versionLenSlot := some v.length })

/-- `wasm_alloc`: `malloc(size)` for the caller; returns a fresh block id.
Caller-owned blocks are not the binding's to free, so they are not tracked in
`live` (which holds the module-owned result buffers). -/
def wasm_alloc (size : Nat) (s : WasmState) : Nat × WasmState :=
  (s.nextPtr, { s with nextPtr := s.nextPtr + 1 })

/-- One boundary call, as visible on the module state (return values dropped).
`opFormat` carries the engine oracle, `opVersion` / `opVersionLen` carry the
engine's version string. -/
inductive Op : Type
  | opInit
  | opSetStyle (b : List Nat)
  | opSetFallbackStyle (b : List Nat)
  | opFormat (engine : Engine) (code filename : List Nat)
  | opAlloc (size : Nat)
  | opFreeResult
  | opVersion (v : List Nat)
  | opVersionLen (v : List Nat)

/-- State transition of a single boundary call. -/
def runOp (o : Op) (s : WasmState) : WasmState :=
  match o with
  | Op.opInit => wasm_init s
  | Op.opSetStyle b => (wasm_set_style b s).2
  | Op.opSetFallbackStyle b => (wasm_set_fallback_style b s).2
  | Op.opFormat engine code filename => (wasm_format_cc engine code filename s).2.1
  | Op.opAlloc n => (wasm_alloc n s).2
  | Op.opFreeResult => (wasm_free_result s).1
  | Op.opVersion v => (wasm_version v s).2
  | Op.opVersionLen v => (wasm_version_len v s).2

/-- Run a sequence of boundary calls from a state. -/
def runOps (ops : List Op) (s : WasmState) : WasmState :=
  ops.foldl (fun t o => runOp o t) s

/-- A state is reachable when some sequence of boundary calls produces it from
the process-start state. -/
def Reachable (s : WasmState) : Prop :=
  ∃ ops : List Op, runOps ops initState = s

/-- The inductive invariant of the binding's state: the Result Slot fields are
consistent (`content_ptr = nullptr` forces `content_len = 0`; a non-null
pointer has positive length and denotes a live module-owned block of exactly
that many bytes), every live block id is below the fresh counter, live block
ids are distinct, and an uninitialized formatter implies an empty slot. -/
def Inv (s : WasmState) : Prop :=
  (s.g_last_result.content_ptr = none → s.g_last_result.content_len = 0) ∧
  (∀ p : Nat, s.g_last_result.content_ptr = some p →
      0 < s.g_last_result.content_len ∧
      ∃ bytes : List Nat, (p, bytes) ∈ s.live ∧ bytes.length = s.g_last_result.content_len) ∧
  (∀ q ∈ s.live, q.1 < s.nextPtr) ∧
  (s.live.map Prod.fst).Nodup ∧
  (s.g_formatter = none → s.g_last_result.content_ptr = none)

theorem inv_initState : Inv initState := by
  refine ⟨fun _ => rfl, ?_, ?_, ?_, fun _ => rfl⟩
  · intro p hp
    simp [initState] at hp
  · intro q hq
    simp [initState] at hq
  · simp [initState]

theorem inv_store_empty (s : WasmState) (st : Nat) (live1 : List (Nat × List Nat))
    (hsub : live1.Sublist s.live) (h : Inv s) :
    Inv { s with
            g_last_result := { status := st, content_ptr := none, content_len := 0 }
            live := live1 } := by
  obtain ⟨h1, h2, h3, h4, h5⟩ := h
  refine ⟨fun _ => rfl, ?_, ?_, ?_, fun _ => rfl⟩
  · intro p hp
    exact Option.noConfusion hp
  · intro q hq
    exact h3 q (hsub.subset hq)
  · exact List.Nodup.sublist (hsub.map Prod.fst) h4

theorem inv_store_nonempty (s : WasmState) (f : ClangFormat) (hf : s.g_formatter = some f)
    (st : Nat) (content : List Nat) (hc : content ≠ [])
    (live1 : List (Nat × List Nat)) (hsub : live1.Sublist s.live) (h : Inv s) :
    Inv { s with
            g_last_result :=
              { status := st, content_ptr := some s.nextPtr,
                content_len := content.length }
            live := (s.nextPtr, content) :: live1
            nextPtr := s.nextPtr + 1 } := by
  obtain ⟨h1, h2, h3, h4, h5⟩ := h
  refine ⟨?_, ?_, ?_, ?_, ?_⟩
  · intro hx
    exact Option.noConfusion hx
  · intro p hp
    have hp2 : s.nextPtr = p := by
      simpa using hp
    subst hp2
    exact ⟨List.length_pos.mpr hc, content, List.mem_cons_self _ _, rfl⟩
  · intro q hq
    rcases List.mem_cons.mp hq with hq | hq
    · subst hq
      exact Nat.lt_succ_self _
    · exact Nat.lt_succ_of_lt (h3 q (hsub.subset hq))
  · rw [List.map_cons]
    refine List.nodup_cons.mpr ⟨?_, List.Nodup.sublist (hsub.map Prod.fst) h4⟩
    intro hmem
    rcases List.mem_map.mp hmem with ⟨q, hq, hq1⟩
    have := h3 q (hsub.subset hq)
    omega
  · intro hx
    have hx2 : s.g_formatter = none := hx
    rw [hf] at hx2
    exact Option.noConfusion hx2

theorem inv_wasm_init (s : WasmState) (h : Inv s) : Inv (wasm_init s) := by
  obtain ⟨h1, h2, h3, h4, h5⟩ := h
  unfold wasm_init
  cases hf : s.g_formatter with
  | none => exact ⟨h1, h2, h3, h4, fun hx => Option.noConfusion hx⟩
  | some f => exact ⟨h1, h2, h3, h4, h5⟩

theorem inv_wasm_set_style (b : List Nat) (s : WasmState) (h : Inv s) :
    Inv (wasm_set_style b s).2 := by
  obtain ⟨h1, h2, h3, h4, h5⟩ := h
  unfold wasm_set_style
  cases hf : s.g_formatter with
  | none => exact ⟨h1, h2, h3, h4, h5⟩
  | some f => exact ⟨h1, h2, h3, h4, fun hx => Option.noConfusion hx⟩

theorem inv_wasm_set_fallback_style (b : List Nat) (s : WasmState) (h : Inv s) :
    Inv (wasm_set_fallback_style b s).2 := by
  obtain ⟨h1, h2, h3, h4, h5⟩ := h
  unfold wasm_set_fallback_style
  cases hf : s.g_formatter with
  | none => exact ⟨h1, h2, h3, h4, h5⟩
  | some f => exact ⟨h1, h2, h3, h4, fun hx => Option.noConfusion hx⟩

theorem inv_wasm_format_cc (engine : Engine) (code filename : List Nat) (s : WasmState)
    (h : Inv s) : Inv (wasm_format_cc engine code filename s).2.1 := by
  unfold wasm_format_cc
  cases hf : s.g_formatter with
  | none =>
      obtain ⟨h1, h2, h3, h4, h5⟩ := h
      exact ⟨fun _ => rfl, fun p hp => Option.noConfusion hp, h3, h4, fun _ => rfl⟩
  | some f =>
      cases hp : s.g_last_result.content_ptr with
      | none =>
          dsimp only
          by_cases hc : (engine f code filename).content = []
          · rw [if_pos hc, ← hf]
            exact inv_store_empty s _ s.live (List.Sublist.refl _) h
          · rw [if_neg hc, ← hf]
            exact inv_store_nonempty s f hf _ _ hc s.live (List.Sublist.refl _) h
      | some p0 =>
          dsimp only
          by_cases hc : (engine f code filename).content = []
          · rw [if_pos hc, ← hf]
            exact inv_store_empty s _ _ (List.eraseP_sublist _) h
          · rw [if_neg hc, ← hf]
            exact inv_store_nonempty s f hf _ _ hc _ (List.eraseP_sublist _) h

theorem inv_wasm_free_result (s : WasmState) (h : Inv s) : Inv (wasm_free_result s).1 := by
  unfold wasm_free_result
  cases hp : s.g_last_result.content_ptr with
  | none => exact h
  | some p => exact inv_store_empty s _ _ (List.eraseP_sublist _) h

theorem inv_wasm_alloc (n : Nat) (s : WasmState) (h : Inv s) : Inv (wasm_alloc n s).2 := by
  obtain ⟨h1, h2, h3, h4, h5⟩ := h
  exact ⟨h1, h2, fun q hq => Nat.lt_succ_of_lt (h3 q hq), h4, h5⟩

theorem inv_wasm_version (v : List Nat) (s : WasmState) (h : Inv s) :
    Inv (wasm_version v s).2 := by
  obtain ⟨h1, h2, h3, h4, h5⟩ := h
  unfold wasm_version
  cases hv : s.versionSlot with
  | some pv => exact ⟨h1, h2, h3, h4, h5⟩
  | none => exact ⟨h1, h2, fun q hq => Nat.lt_succ_of_lt (h3 q hq), h4, h5⟩

theorem inv_wasm_version_len (v : List Nat) (s : WasmState) (h : Inv s) :
    Inv (wasm_version_len v s).2 := by
  obtain ⟨h1, h2, h3, h4, h5⟩ := h
  unfold wasm_version_len
  cases hv : s.versionLenSlot with
  | some n => exact ⟨h1, h2, h3, h4, h5⟩
  | none => exact ⟨h1, h2, h3, h4, h5⟩

theorem inv_runOp (o : Op) (s : WasmState) (h : Inv s) : Inv (runOp o s) := by
  cases o with
  | opInit => exact inv_wasm_init s h
  | opSetStyle b => exact inv_wasm_set_style b s h
  | opSetFallbackStyle b => exact inv_wasm_set_fallback_style b s h
  | opFormat engine code filename => exact inv_wasm_format_cc engine code filename s h
  | opAlloc n => exact inv_wasm_alloc n s h
  | opFreeResult => exact inv_wasm_free_result s h
  | opVersion v => exact inv_wasm_version v s h
  | opVersionLen v => exact inv_wasm_version_len v s h

theorem inv_runOps (ops : List Op) (s : WasmState) (h : Inv s) : Inv (runOps ops s) := by
  induction ops generalizing s with
  | nil => exact h
  | cons o rest ih => exact ih (runOp o s) (inv_runOp o s h)

theorem inv_reachable (s : WasmState) (hr : Reachable s) : Inv s := by
  obtain ⟨ops, hops⟩ := hr
  rw [← hops]
  exact inv_runOps ops initState inv_initState

/-- A fixed engine oracle for concrete test states: always reports Success
with the single output byte 65. -/
def constEngine : Engine :=
  fun _ _ _ => { status := ResultStatus.success, content := [65] }

/-- A fixed engine oracle that reports Error with empty output. -/
def errEngine : Engine :=
  fun _ _ _ => { status := ResultStatus.error, content := [] }

/-- A concrete call sequence: `wasm_init` then one `wasm_format`; it leaves an
initialized formatter and a held result buffer in the slot. -/
def sampleOps : List Op :=
  [Op.opInit, Op.opFormat constEngine [1, 2] [3]]

/-- The state after `sampleOps`: formatter constructed, result slot holding
block 0 with contents `[65]`. -/
def sampleState : WasmState :=
  runOps sampleOps initState

/-- Any call sequence that never runs `wasm_init` leaves `g_formatter` null:
only `wasm_init` writes it, and every other operation preserves a null
formatter. -/
theorem formatter_none_runOps (ops : List Op) (s : WasmState) (hs : s.g_formatter = none)
    (h : ∀ o ∈ ops, o ≠ Op.opInit) : (runOps ops s).g_formatter = none := by
  induction ops generalizing s with
  | nil => exact hs
  | cons o rest ih =>
      refine ih (runOp o s) ?_ (fun o2 ho2 => h o2 (List.mem_cons_of_mem _ ho2))
      have ho : o ≠ Op.opInit := h o (List.mem_cons_self _ _)
      cases o with
      | opInit => exact absurd rfl ho
      | opSetStyle b =>
          unfold runOp wasm_set_style
          rw [hs]
          exact hs
      | opSetFallbackStyle b =>
          unfold runOp wasm_set_fallback_style
          rw [hs]
          exact hs
      | opFormat engine code filename =>
          unfold runOp wasm_format_cc
          rw [hs]
      | opAlloc n => exact hs
      | opFreeResult =>
          unfold runOp wasm_free_result
          cases hp : s.g_last_result.content_ptr with
          | none => exact hs
          | some p => exact hs
      | opVersion v =>
          unfold runOp wasm_version
          cases hv : s.versionSlot with
          | none => exact hs
          | some pv => exact hs
      | opVersionLen v =>
          unfold runOp wasm_version_len
          cases hv : s.versionLenSlot with
          | none => exact hs
          | some n => exact hs

/-- On a state whose formatter is null, `wasm_format_cc` takes the
early-return path. -/
theorem wasm_format_cc_of_formatter_none (engine : Engine) (code filename : List Nat)
    (s : WasmState) (h : s.g_formatter = none) :
    wasm_format_cc engine code filename s =
      (1, { s with g_last_result := { status := 1, content_ptr := none, content_len := 0 } },
       []) := by
  unfold wasm_format_cc
  rw [h]

/-- Claim C2: every `format` call made before `initialize` has ever been
called (i.e. in a state produced by a call sequence containing no `wasm_init`)
returns immediately with status Error (code 1), writes status 1, null pointer
and length 0 into the Result Slot, and performs no allocator interaction. -/
theorem wasm_format_uninitialized_early_return (engine : Engine) (code filename : List Nat)
    (ops : List Op) (hops : ∀ o ∈ ops, o ≠ Op.opInit) :
    wasm_format_cc engine code filename (runOps ops initState) =
      (1,
       { runOps ops initState with
           g_last_result := { status := 1, content_ptr := none, content_len := 0 } },
       []) ∧
    wasm_get_result_status (wasm_format_cc engine code filename (runOps ops initState)).2.1 = 1 ∧
    wasm_get_result_ptr (wasm_format_cc engine code filename (runOps ops initState)).2.1 = none ∧
    wasm_get_result_len (wasm_format_cc engine code filename (runOps ops initState)).2.1 = 0 := by
  have hs : (runOps ops initState).g_formatter = none :=
    formatter_none_runOps ops initState rfl hops
  rw [wasm_format_cc_of_formatter_none engine code filename _ hs]
  exact ⟨rfl, rfl, rfl, rfl⟩

/-- Witness for C2: a concrete never-initialized run (one `set_style` call,
which fails) followed by `format`. -/
theorem wasm_format_uninitialized_early_return_witness :
    wasm_format_cc constEngine [1] [2] (runOps [Op.opSetStyle [71]] initState) =
      (1,
       { runOps [Op.opSetStyle [71]] initState with
           g_last_result := { status := 1, content_ptr := none, content_len := 0 } },
       []) ∧
    wasm_get_result_status
      (wasm_format_cc constEngine [1] [2] (runOps [Op.opSetStyle [71]] initState)).2.1 = 1 ∧
    wasm_get_result_ptr
      (wasm_format_cc constEngine [1] [2] (runOps [Op.opSetStyle [71]] initState)).2.1 = none ∧
    wasm_get_result_len
      (wasm_format_cc constEngine [1] [2] (runOps [Op.opSetStyle [71]] initState)).2.1 = 0 :=
  wasm_format_uninitialized_early_return constEngine [1] [2] [Op.opSetStyle [71]]
    (by intro o ho; simp at ho; subst ho; intro hx; exact Op.noConfusion hx)

/-- Claim C4: the accessor-based variant (`src/wasi_binding.cc`, integer
status return) and the inline-record variant (`src/unnamed/part_000`,
returned `WasmResult*`) agree on every input and prior state: identical post
state, identical allocator events, the returned record is exactly the final
Result Slot record, and the returned status is exactly what the status
accessor reads from the slot. -/
theorem format_variants_equivalent (engine : Engine) (code filename : List Nat)
    (s : WasmState) :
    (wasm_format_part000 engine code filename s).2.1 =
      (wasm_format_cc engine code filename s).2.1 ∧
    (wasm_format_part000 engine code filename s).1 =
      (wasm_format_part000 engine code filename s).2.1.g_last_result ∧
    (wasm_format_cc engine code filename s).1 =
      wasm_get_result_status (wasm_format_cc engine code filename s).2.1 ∧
    (wasm_format_part000 engine code filename s).2.2 =
      (wasm_format_cc engine code filename s).2.2 := by
  unfold wasm_format_cc wasm_format_part000
  cases hf : s.g_formatter with
  | none => exact ⟨rfl, rfl, rfl, rfl⟩
  | some f =>
      dsimp only
      by_cases hc : (engine f code filename).content = []
      · simp only [if_pos hc]
        exact ⟨trivial, trivial, rfl, trivial⟩
      · simp only [if_neg hc]
        exact ⟨trivial, trivial, rfl, trivial⟩

/-- Claim C5: `wasm_set_style` and `wasm_set_fallback_style` return `-1` and
change nothing at all when the formatter was never constructed; after
construction they copy exactly the given byte range into the corresponding
style field (and touch nothing else) and return `0`. -/
theorem set_style_before_and_after_init (b : List Nat) (s : WasmState) :
    (s.g_formatter = none →
        wasm_set_style b s = (-1, s) ∧ wasm_set_fallback_style b s = (-1, s)) ∧
    (∀ f : ClangFormat, s.g_formatter = some f →
        wasm_set_style b s =
          (0, { s with g_formatter := some { f with primaryStyle := some b } }) ∧
        wasm_set_fallback_style b s =
          (0, { s with g_formatter := some { f with fallbackStyle := some b } })) := by
  constructor
  · intro h
    unfold wasm_set_style wasm_set_fallback_style
    rw [h]
    exact ⟨rfl, rfl⟩
  · intro f hf
    unfold wasm_set_style wasm_set_fallback_style
    rw [hf]
    exact ⟨rfl, rfl⟩

/-- Witness for C5: both setters fail without mutation at process start, and
after `wasm_init` both succeed and write the byte range. -/
theorem set_style_before_and_after_init_witness :
    (wasm_set_style [71] initState = (-1, initState) ∧
     wasm_set_fallback_style [71] initState = (-1, initState)) ∧
    (wasm_set_style [71] (wasm_init initState) =
       (0, { wasm_init initState with
               g_formatter := some { primaryStyle := some [71], fallbackStyle := none } }) ∧
     wasm_set_fallback_style [71] (wasm_init initState) =
       (0, { wasm_init initState with
               g_formatter := some { primaryStyle := none, fallbackStyle := some [71] } })) :=
  ⟨(set_style_before_and_after_init [71] initState).1 rfl,
   (set_style_before_and_after_init [71] (wasm_init initState)).2 ClangFormat.new rfl⟩

/-- `wasm_init` twice is `wasm_init` once. -/
theorem wasm_init_twice (s : WasmState) : wasm_init (wasm_init s) = wasm_init s := by
  cases hf : s.g_formatter with
  | none =>
      have h1 : wasm_init s = { s with g_formatter := some ClangFormat.new } := by
        unfold wasm_init
        rw [hf]
      rw [h1]
      unfold wasm_init
      rfl
  | some f =>
      have h1 : wasm_init s = s := by
        unfold wasm_init
        rw [hf]
      rw [h1, h1]

/-- Claim C7: `wasm_init` is idempotent: for every N ≥ 1 (here `n + 1` calls),
the state equals the one after a single call; the first call at process start
constructs the singleton formatter, and after any call the formatter exists
(subsequent calls are no-ops and there is no failure return). -/
theorem init_idempotent (s : WasmState) (n : Nat) :
    Nat.iterate wasm_init n (wasm_init s) = wasm_init s ∧
    (wasm_init s).g_formatter.isSome = true ∧
    wasm_init initState = { initState with g_formatter := some ClangFormat.new } := by
  refine ⟨?_, ?_, rfl⟩
  · induction n with
    | zero => rfl
    | succ m ih =>
        rw [Function.iterate_succ_apply, wasm_init_twice]
        exact ih
  · unfold wasm_init
    cases hf : s.g_formatter with
    | none => rfl
    | some f =>
        show s.g_formatter.isSome = true
        rw [hf]
        rfl

/-- Once the static local of `wasm_version` is initialized, no boundary call
changes it. -/
theorem versionSlot_runOp (o : Op) (s : WasmState) (x : Nat × List Nat)
    (h : s.versionSlot = some x) : (runOp o s).versionSlot = some x := by
  cases o with
  | opInit =>
      unfold runOp wasm_init
      cases hf : s.g_formatter with
      | none => exact h
      | some f => exact h
  | opSetStyle b =>
      unfold runOp wasm_set_style
      cases hf : s.g_formatter with
      | none => exact h
      | some f => exact h
  | opSetFallbackStyle b =>
      unfold runOp wasm_set_fallback_style
      cases hf : s.g_formatter with
      | none => exact h
      | some f => exact h
  | opFormat engine code filename =>
      unfold runOp wasm_format_cc
      cases hf : s.g_formatter with
      | none => exact h
      | some f =>
          dsimp only
          by_cases hc : (engine f code filename).content = []
          · rw [if_pos hc]
            exact h
          · rw [if_neg hc]
            exact h
  | opAlloc n => exact h
  | opFreeResult =>
      unfold runOp wasm_free_result
      cases hp : s.g_last_result.content_ptr with
      | none => exact h
      | some p => exact h
  | opVersion v =>
      unfold runOp wasm_version
      cases hv : s.versionSlot with
      | some pv => exact h
      | none =>
          rw [hv] at h
          exact Option.noConfusion h
  | opVersionLen v =>
      unfold runOp wasm_version_len
      cases hv : s.versionLenSlot with
      | some n => exact h
      | none => exact h

/-- Once the static local of `wasm_version_len` is initialized, no boundary
call changes it. -/
theorem versionLenSlot_runOp (o : Op) (s : WasmState) (x : Nat)
    (h : s.versionLenSlot = some x) : (runOp o s).versionLenSlot = some x := by
  cases o with
  | opInit =>
      unfold runOp wasm_init
      cases hf : s.g_formatter with
      | none => exact h
      | some f => exact h
  | opSetStyle b =>
      unfold runOp wasm_set_style
      cases hf : s.g_formatter with
      | none => exact h
      | some f => exact h
  | opSetFallbackStyle b =>
      unfold runOp wasm_set_fallback_style
      cases hf : s.g_formatter with
      | none => exact h
      | some f => exact h
  | opFormat engine code filename =>
      unfold runOp wasm_format_cc
      cases hf : s.g_formatter with
      | none => exact h
      | some f =>
          dsimp only
          by_cases hc : (engine f code filename).content = []
          · rw [if_pos hc]
            exact h
          · rw [if_neg hc]
            exact h
  | opAlloc n => exact h
  | opFreeResult =>
      unfold runOp wasm_free_result
      cases hp : s.g_last_result.content_ptr with
      | none => exact h
      | some p => exact h
  | opVersion v =>
      unfold runOp wasm_version
      cases hv : s.versionSlot with
      | some pv => exact h
      | none => exact h
  | opVersionLen v =>
      unfold runOp wasm_version_len
      cases hv : s.versionLenSlot with
      | some n => exact h
      | none =>
          rw [hv] at h
          exact Option.noConfusion h

/-- Iterated form of `versionSlot_runOp`. -/
theorem versionSlot_runOps (ops : List Op) (s : WasmState) (x : Nat × List Nat)
    (h : s.versionSlot = some x) : (runOps ops s).versionSlot = some x := by
  induction ops generalizing s with
  | nil => exact h
  | cons o rest ih => exact ih (runOp o s) (versionSlot_runOp o s x h)

/-- Iterated form of `versionLenSlot_runOp`. -/
theorem versionLenSlot_runOps (ops : List Op) (s : WasmState) (x : Nat)
    (h : s.versionLenSlot = some x) : (runOps ops s).versionLenSlot = some x := by
  induction ops generalizing s with
  | nil => exact h
  | cons o rest ih => exact ih (runOp o s) (versionLenSlot_runOp o s x h)

/-- Claim C9: the version string is computed on first access and cached: a
later `wasm_version` call — after any sequence of intervening boundary calls,
and whatever version string the engine would now report — returns the same
pointer as the first call, and likewise `wasm_version_len` always returns the
same length. -/
theorem version_stable (s : WasmState) (v v1 : List Nat) (ops ops1 : List Op) :
    (wasm_version v1 (runOps ops (wasm_version v s).2)).1 = (wasm_version v s).1 ∧
    (wasm_version_len v1 (runOps ops1 (wasm_version_len v s).2)).1 =
      (wasm_version_len v s).1 := by
  constructor
  · cases hv : s.versionSlot with
    | some pv =>
        have h1 : wasm_version v s = (pv.1, s) := by
          unfold wasm_version
          rw [hv]
        rw [h1]
        dsimp only
        have h2 : (runOps ops s).versionSlot = some pv := versionSlot_runOps ops s pv hv
        unfold wasm_version
        rw [h2]
    | none =>
        have h1 : wasm_version v s =
            (s.nextPtr,
             { s with versionSlot := some (s.nextPtr, v), nextPtr := s.nextPtr + 1 }) := by
          unfold wasm_version
          rw [hv]
        rw [h1]
        dsimp only
        have h2 : (runOps ops
            { s with versionSlot := some (s.nextPtr, v), nextPtr := s.nextPtr + 1 }).versionSlot
              = some (s.nextPtr, v) :=
          versionSlot_runOps ops _ _ rfl
        unfold wasm_version
        rw [h2]
  · cases hv : s.versionLenSlot with
    | some n =>
        have h1 : wasm_version_len v s = (n, s) := by
          unfold wasm_version_len
          rw [hv]
        rw [h1]
        dsimp only
        have h2 : (runOps ops1 s).versionLenSlot = some n := versionLenSlot_runOps ops1 s n hv
        unfold wasm_version_len
        rw [h2]
    | none =>
        have h1 : wasm_version_len v s =
            (v.length, { s with versionLenSlot := some v.length }) := by
          unfold wasm_version_len
          rw [hv]
        rw [h1]
        dsimp only
        have h2 : (runOps ops1 { s with versionLenSlot := some v.length }).versionLenSlot
            = some v.length :=
          versionLenSlot_runOps ops1 _ _ rfl
        unfold wasm_version_len
        rw [h2]

/-- Claim C10: in every reachable state whose formatter singleton is still
null, the Result Slot holds no buffer; hence the uninitialized early-return
path of `format`, which overwrites the slot fields without freeing, cannot
leak a previously held buffer (there is none) and indeed performs no
allocator interaction. -/
theorem uninitialized_reachable_slot_empty (s : WasmState) (hr : Reachable s)
    (engine : Engine) (code filename : List Nat) (h : s.g_formatter = none) :
    s.g_last_result.content_ptr = none ∧
    (wasm_format_cc engine code filename s).2.2 = [] := by
  refine ⟨(inv_reachable s hr).2.2.2.2 h, ?_⟩
  rw [wasm_format_cc_of_formatter_none engine code filename s h]

/-- Witness for C10: the process-start state is reachable, uninitialized, and
holds no buffer. -/
theorem uninitialized_reachable_slot_empty_witness :
    initState.g_last_result.content_ptr = none ∧
    (wasm_format_cc constEngine [] [] initState).2.2 = [] :=
  uninitialized_reachable_slot_empty initState ⟨[], rfl⟩ constEngine [] [] rfl

/-- Claim C6: on every reachable state, `wasm_free_result` leaves the Result
Slot with length 0 and a null pointer (also when the slot was already empty),
and a second consecutive call is a no-op: it returns the state unchanged and
frees nothing. -/
theorem free_result_idempotent (s : WasmState) (hr : Reachable s) :
    wasm_get_result_len (wasm_free_result s).1 = 0 ∧
    wasm_get_result_ptr (wasm_free_result s).1 = none ∧
    wasm_free_result (wasm_free_result s).1 = ((wasm_free_result s).1, []) := by
  obtain ⟨h1, h2, h3, h4, h5⟩ := inv_reachable s hr
  cases hp : s.g_last_result.content_ptr with
  | none =>
      have he : wasm_free_result s = (s, []) := by
        unfold wasm_free_result
        rw [hp]
      rw [he]
      exact ⟨h1 hp, hp, he⟩
  | some p =>
      have he : wasm_free_result s =
          ({ s with
               g_last_result :=
                 { status := s.g_last_result.status, content_ptr := none, content_len := 0 }
               live := s.live.eraseP (fun q => q.1 == p) },
           [MemEvent.free p]) := by
        unfold wasm_free_result
        rw [hp]
      rw [he]
      refine ⟨rfl, rfl, ?_⟩
      unfold wasm_free_result
      rfl

/-- Witness for C6: after `wasm_init` and a buffer-producing `wasm_format`,
releasing twice ends with an empty slot and a no-op second call. -/
theorem free_result_idempotent_witness :
    wasm_get_result_len (wasm_free_result sampleState).1 = 0 ∧
    wasm_get_result_ptr (wasm_free_result sampleState).1 = none ∧
    wasm_free_result (wasm_free_result sampleState).1 = ((wasm_free_result sampleState).1, []) :=
  free_result_idempotent sampleState ⟨sampleOps, rfl⟩

/-- Claim C1: on every reachable state with the formatter initialized and a
buffer `p` held in the Result Slot, a `format` call frees `p` exactly once —
the one free event heads the trace, before the allocation of the new output
buffer, and `p` was a live module-owned block (so the free is valid, not a
double free); on the uninitialized early-return path the call performs no
release at all. -/
theorem format_frees_predecessor_exactly_once (s : WasmState) (hr : Reachable s)
    (engine : Engine) (code filename : List Nat) :
    (∀ p : Nat, s.g_last_result.content_ptr = some p → s.g_formatter ≠ none →
        ∃ bytes : List Nat, ∃ rest : List MemEvent,
          (p, bytes) ∈ s.live ∧
          (wasm_format_cc engine code filename s).2.2 = MemEvent.free p :: rest ∧
          (∀ q : Nat, MemEvent.free q ∉ rest)) ∧
    (s.g_formatter = none → (wasm_format_cc engine code filename s).2.2 = []) := by
  constructor
  · intro p hp hne
    obtain ⟨hlen, bytes, hmem, hblen⟩ := (inv_reachable s hr).2.1 p hp
    cases hf : s.g_formatter with
    | none => exact absurd hf hne
    | some f =>
        by_cases hc : (engine f code filename).content = []
        · refine ⟨bytes, [], hmem, ?_, ?_⟩
          · unfold wasm_format_cc
            rw [hf]
            dsimp only
            rw [hp]
            dsimp only
            rw [if_pos hc]
          · intro q hq
            exact List.not_mem_nil _ hq
        · refine ⟨bytes, [MemEvent.alloc s.nextPtr], hmem, ?_, ?_⟩
          · unfold wasm_format_cc
            rw [hf]
            dsimp only
            rw [hp]
            dsimp only
            rw [if_neg hc]
            rfl
          · intro q hq
            simp at hq
  · intro h
    rw [wasm_format_cc_of_formatter_none engine code filename s h]

/-- Witness for C1: after one successful `format`, the next `format` call
frees block 0 (held in the slot) exactly once, before allocating anew. -/
theorem format_frees_predecessor_witness :
    ∃ bytes : List Nat, ∃ rest : List MemEvent,
      ((0 : Nat), bytes) ∈ sampleState.live ∧
      (wasm_format_cc constEngine [9] [8] sampleState).2.2 = MemEvent.free 0 :: rest ∧
      (∀ q : Nat, MemEvent.free q ∉ rest) :=
  (format_frees_predecessor_exactly_once sampleState ⟨sampleOps, rfl⟩ constEngine [9] [8]).1
    0 rfl (by decide)

/-- Claim C3 (engine contract modelled from the spec: an engine failure
carries empty content, `lib.cc` not being under `src/`): whenever a `format`
call leaves status Error (code 1) in the Result Slot — on the uninitialized
path or because the engine failed — the length accessor reads 0 and the
pointer accessor reads null. -/
theorem format_error_implies_empty_result (s : WasmState) (engine : Engine)
    (code filename : List Nat)
    (he : ∀ (f : ClangFormat) (c fn : List Nat),
        (engine f c fn).status = ResultStatus.error → (engine f c fn).content = []) :
    wasm_get_result_status (wasm_format_cc engine code filename s).2.1 = 1 →
    wasm_get_result_len (wasm_format_cc engine code filename s).2.1 = 0 ∧
    wasm_get_result_ptr (wasm_format_cc engine code filename s).2.1 = none := by
  cases hf : s.g_formatter with
  | none =>
      intro hst
      rw [wasm_format_cc_of_formatter_none engine code filename s hf]
      exact ⟨rfl, rfl⟩
  | some f =>
      by_cases hc : (engine f code filename).content = []
      · intro hst
        constructor
        · unfold wasm_format_cc
          rw [hf]
          dsimp only
          rw [if_pos hc]
          rfl
        · unfold wasm_format_cc
          rw [hf]
          dsimp only
          rw [if_pos hc]
          rfl
      · intro hst
        exfalso
        apply hc
        apply he
        unfold wasm_format_cc at hst
        rw [hf] at hst
        dsimp only at hst
        rw [if_neg hc] at hst
        have hstatus : statusCode (engine f code filename).status = 1 := hst
        cases hs : (engine f code filename).status with
        | success =>
            rw [hs] at hstatus
            exact absurd hstatus (by decide)
        | error => rfl
        | unchanged =>
            rw [hs] at hstatus
            exact absurd hstatus (by decide)

/-- Witness for C3: an engine that reports Error with empty content, called
on an initialized state, leaves length 0 and a null pointer. -/
theorem format_error_implies_empty_result_witness :
    wasm_get_result_len (wasm_format_cc errEngine [1] [] (wasm_init initState)).2.1 = 0 ∧
    wasm_get_result_ptr (wasm_format_cc errEngine [1] [] (wasm_init initState)).2.1 = none :=
  format_error_implies_empty_result (wasm_init initState) errEngine [1] []
    (fun _ _ _ _ => rfl) rfl

/-- Claim C8: in every reachable state the Result Slot invariant holds
(length 0 forces a null buffer, a non-null buffer forces positive length);
and a `format` call on an initialized state either leaves the slot empty
(engine produced no content) or stores a newly allocated block — fresh, not
among the previously live ids — holding exactly the engine's output bytes,
with the slot length exactly the output length. -/
theorem result_slot_invariant_and_format_storage (s : WasmState) (hr : Reachable s)
    (engine : Engine) (code filename : List Nat) :
    ((s.g_last_result.content_len = 0 → s.g_last_result.content_ptr = none) ∧
     (s.g_last_result.content_ptr ≠ none → 0 < s.g_last_result.content_len)) ∧
    (∀ f : ClangFormat, s.g_formatter = some f →
        ((engine f code filename).content = [] →
            (wasm_format_cc engine code filename s).2.1.g_last_result.content_ptr = none ∧
            (wasm_format_cc engine code filename s).2.1.g_last_result.content_len = 0) ∧
        ((engine f code filename).content ≠ [] →
            (wasm_format_cc engine code filename s).2.1.g_last_result.content_ptr =
              some s.nextPtr ∧
            (wasm_format_cc engine code filename s).2.1.g_last_result.content_len =
              (engine f code filename).content.length ∧
            (s.nextPtr, (engine f code filename).content) ∈
              (wasm_format_cc engine code filename s).2.1.live ∧
            s.nextPtr ∉ s.live.map Prod.fst)) := by
  obtain ⟨h1, h2, h3, h4, h5⟩ := inv_reachable s hr
  constructor
  · constructor
    · intro hlen
      cases hp : s.g_last_result.content_ptr with
      | none => rfl
      | some p =>
          exfalso
          obtain ⟨hpos, _⟩ := h2 p hp
          omega
    · intro hne
      cases hp : s.g_last_result.content_ptr with
      | none => exact absurd hp hne
      | some p => exact (h2 p hp).1
  · intro f hf
    constructor
    · intro hc
      constructor
      · unfold wasm_format_cc
        rw [hf]
        dsimp only
        rw [if_pos hc]
      · unfold wasm_format_cc
        rw [hf]
        dsimp only
        rw [if_pos hc]
    · intro hc
      refine ⟨?_, ?_, ?_, ?_⟩
      · unfold wasm_format_cc
        rw [hf]
        dsimp only
        rw [if_neg hc]
      · unfold wasm_format_cc
        rw [hf]
        dsimp only
        rw [if_neg hc]
      · unfold wasm_format_cc
        rw [hf]
        dsimp only
        rw [if_neg hc]
        exact List.mem_cons_self _ _
      · intro hmem
        rcases List.mem_map.mp hmem with ⟨q, hq, hq1⟩
        have := h3 q hq
        omega

/-- Witness for C8: the new buffer stored by a second `format` call on the
sample state is fresh, holds the engine's bytes, and has the exact length. -/
theorem result_slot_invariant_witness :
    (wasm_format_cc constEngine [] [] sampleState).2.1.g_last_result.content_ptr =
      some sampleState.nextPtr ∧
    (wasm_format_cc constEngine [] [] sampleState).2.1.g_last_result.content_len =
      (constEngine ClangFormat.new [] []).content.length ∧
    (sampleState.nextPtr, (constEngine ClangFormat.new [] []).content) ∈
      (wasm_format_cc constEngine [] [] sampleState).2.1.live ∧
    sampleState.nextPtr ∉ sampleState.live.map Prod.fst :=
  ((result_slot_invariant_and_format_storage sampleState ⟨sampleOps, rfl⟩
      constEngine [] []).2 ClangFormat.new rfl).2 (by decide)

end ClangFormatWasm
